import Mathlib

set_option maxHeartbeats 1000000

/-
Verification development for the describe pipeline in
src/backend/fusion/describe.rs.

The pipeline normalizes every column of a tabular dataset to a numeric
representation, computes a fixed registry of zero-group aggregate
statistics over the normalized dataset, unions the per-statistic rows
into a labeled report, reverse-casts the report columns toward the
original column types and sorts the rows by the label column.

The underlying execution engine (DataFusion) is an external collaborator:
column projection, casting, aggregation, union and sort are modeled here
with executable semantics. Aggregate functions whose numeric results no
part of the source pins down (avg, stddev, min, max, median, approximate
percentile) are parameters of the model, bundled in an Engine record of
possibly-failing functions, mirroring the fallible DataFrame API the
source calls into. The count and sum aggregates, whose SQL semantics the
statistics depend on, are fixed: count returns the number of non-null
inputs, sum returns null on an empty input and the total otherwise.

Panics matter here: the fold in do_describe unwraps every aggregation,
projection and union result, so an engine failure inside the fold aborts
the call by panic instead of returning an error. The Outcome type keeps
returned errors and panics distinct.
-/

namespace Describe

/-- Arrow-style data types, covering the categories the source inspects. -/
inductive DataType where
  | int8 | int16 | int32 | int64
  | uint8 | uint16 | uint32 | uint64
  | float16 | float32 | float64
  | decimal
  | boolean
  | utf8
  | binary
  | date32 | date64
  | time32 | time64
  | timestamp
  | duration
  | interval
  | nullType
  | list (elem : DataType)
  | largeList (elem : DataType)
  deriving DecidableEq, Repr

/-- Mirrors arrow DataType::is_numeric. -/
def DataType.isNumeric : DataType → Bool
  | .int8 | .int16 | .int32 | .int64 => true
  | .uint8 | .uint16 | .uint32 | .uint64 => true
  | .float16 | .float32 | .float64 => true
  | .decimal => true
  | _ => false

/-- Mirrors arrow DataType::is_temporal. -/
def DataType.isTemporal : DataType → Bool
  | .date32 | .date64 | .time32 | .time64 => true
  | .timestamp | .duration | .interval => true
  | _ => false

/-- Tests for the List and LargeList arms of the source matches. -/
def DataType.isListLike : DataType → Bool
  | .list _ | .largeList _ => true
  | _ => false

/-- A named, typed column description. -/
structure Field where
  name : String
  dtype : DataType
  deriving DecidableEq, Repr

/-- Runtime values. Floats are modeled as rationals; temporal values carry
their underlying numeric representation. -/
inductive Val where
  | int (i : Int)
  | float (q : Rat)
  | str (s : String)
  | bool (b : Bool)
  | temporal (t : Int)
  | vlist (elems : List Val)

instance : Inhabited Val := ⟨Val.int 0⟩

/-- A dataset: a schema plus rows; a cell is null when it is none. -/
structure DataFrame where
  schema : List Field
  rows : List (List (Option Val))

instance : Inhabited DataFrame := ⟨⟨[], []⟩⟩

/-- Index of the first column with the given name. -/
def colIndex (schema : List Field) (n : String) : Option Nat :=
  match schema with
  | [] => none
  | f :: fs => if f.name = n then some 0 else (colIndex fs n).map (· + 1)

/-- Structural lexicographic comparison of strings by code point, the
ascending order the engine sort uses on a textual column. -/
def charListLtB : List Char → List Char → Bool
  | [], [] => false
  | [], _ :: _ => true
  | _ :: _, [] => false
  | a :: as, b :: bs =>
    if a.val.toNat < b.val.toNat then true
    else if b.val.toNat < a.val.toNat then false
    else charListLtB as bs

def strLeB (s t : String) : Bool := !(charListLtB t.data s.data)

/-- Textual rendering used by the model of a cast to Utf8. -/
def toTextVal : Val → String
  | .int i => toString i
  | .float q => toString q.num
  | .str s => s
  | .bool b => if b then "true" else "false"
  | .temporal t => toString t
  | .vlist l => toString l.length

/-- Value-level cast between representations. Only the casts the source
issues matter: temporal to Float64, anything to Utf8, numeric back to a
temporal type, numeric to Int32. The cast is null-preserving by being
applied under Option.map. -/
def castVal (dt : DataType) (v : Val) : Val :=
  if dt = .utf8 then .str (toTextVal v)
  else if dt.isTemporal then
    match v with
    | .float q => .temporal q.floor
    | .int i => .temporal i
    | .temporal t => .temporal t
    | w => w
  else if dt = .float64 then
    match v with
    | .temporal t => .float (t : Rat)
    | .int i => .float (i : Rat)
    | w => w
  else if dt = .int32 then
    match v with
    | .float q => .int q.floor
    | .int i => .int i
    | .temporal t => .int t
    | w => w
  else v

/-- Equality test used by the CASE comparison; only scalar shapes compare. -/
def valEqB : Val → Val → Bool
  | .int a, .int b => a = b
  | .float a, .float b => a = b
  | .str a, .str b => a = b
  | .bool a, .bool b => a = b
  | .temporal a, .temporal b => a = b
  | _, _ => false

/-- Ordering test used by the engine sort; strings compare by code point. -/
def valLeB : Val → Val → Bool
  | .str a, .str b => strLeB a b
  | .int a, .int b => a ≤ b
  | .float a, .float b => a ≤ b
  | .temporal a, .temporal b => a ≤ b
  | .bool a, .bool b => !a || b
  | _, _ => true

/-- Sort-key comparison with nulls last, matching sort(asc, nulls_first = false). -/
def keyLeB : Option Val → Option Val → Bool
  | none, none => true
  | none, some _ => false
  | some _, none => true
  | some a, some b => valLeB a b

/-- Sort key of a row: the cell at the given index, none when absent. -/
def keyAt (i : Nat) (row : List (Option Val)) : Option Val :=
  row.getD i none

/-- Column expressions, covering exactly the constructs the source builds:
column references, literals, casts, the string length function, the array
length function, is_null, the CASE WHEN form, and aliasing. -/
inductive Expr where
  | col (n : String)
  | lit (v : Val)
  | cast (e : Expr) (dt : DataType)
  | strLength (e : Expr)
  | arrayLength (e : Expr)
  | isNull (e : Expr)
  | caseWhen (base w thenV elseV : Expr)
  | alias (e : Expr) (n : String)

/-- Static type of a literal, as the engine assigns it. -/
def Val.litType : Val → DataType
  | .int _ => .int32
  | .float _ => .float64
  | .str _ => .utf8
  | .bool _ => .boolean
  | .temporal _ => .timestamp
  | .vlist _ => .nullType

/-- Static result type of an expression over a schema. -/
def Expr.dtype (schema : List Field) : Expr → DataType
  | .col n => (((schema.find? (fun f => f.name = n)).map Field.dtype).getD .nullType)
  | .lit v => v.litType
  | .cast _ dt => dt
  | .strLength _ => .int32
  | .arrayLength _ => .uint64
  | .isNull _ => .boolean
  | .caseWhen _ _ t _ => t.dtype schema
  | .alias e _ => e.dtype schema

/-- Output name of a projection expression. -/
def Expr.outName : Expr → String
  | .col n => n
  | .alias _ n => n
  | _ => "?unnamed"

/-- Column names an expression reads. -/
def Expr.colRefs : Expr → List String
  | .col n => [n]
  | .lit _ => []
  | .cast e _ => e.colRefs
  | .strLength e => e.colRefs
  | .arrayLength e => e.colRefs
  | .isNull e => e.colRefs
  | .caseWhen b w t e => b.colRefs ++ w.colRefs ++ t.colRefs ++ e.colRefs
  | .alias e _ => e.colRefs

/-- Row-level evaluation of an expression. Null propagates through casts and
the length functions; is_null never returns null; CASE compares the scrutinee
with the WHEN value and otherwise takes the ELSE branch. -/
def evalExpr (schema : List Field) (row : List (Option Val)) : Expr → Option Val
  | .col n =>
    match colIndex schema n with
    | some i => row.getD i none
    | none => none
  | .lit v => some v
  | .cast e dt => (evalExpr schema row e).map (castVal dt)
  | .strLength e =>
    (evalExpr schema row e).bind fun v =>
      match v with
      | .str s => some (.int s.length)
      | _ => none
  | .arrayLength e =>
    (evalExpr schema row e).bind fun v =>
      match v with
      | .vlist l => some (.int l.length)
      | _ => none
  | .isNull e => some (.bool (evalExpr schema row e).isNone)
  | .caseWhen b w t els =>
    match evalExpr schema row b, evalExpr schema row w with
    | some bv, some wv =>
      if valEqB bv wv then evalExpr schema row t else evalExpr schema row els
    | _, _ => evalExpr schema row els
  | .alias e _ => evalExpr schema row e

/-- Projection: checks that every referenced column exists, then maps each
expression over every row. The output schema takes each expression output
name and static type. -/
def selectDf (df : DataFrame) (es : List Expr) : Except String DataFrame :=
  if es.all (fun e => e.colRefs.all (fun n => (colIndex df.schema n).isSome)) then
    .ok ⟨es.map (fun e => ⟨e.outName, e.dtype df.schema⟩),
         df.rows.map (fun r => es.map (evalExpr df.schema r))⟩
  else .error "column not found"

/-- The values of the named column, in row order. -/
def colVals (df : DataFrame) (n : String) : List (Option Val) :=
  df.rows.map (fun r => evalExpr df.schema r (.col n))

/-- Number of non-null entries, the SQL count semantics. -/
def countSome (c : List (Option Val)) : Nat := (c.filterMap id).length

/-- Number of null entries of a column. -/
def countNone (c : List (Option Val)) : Nat := c.countP (fun v => v.isNone)

/-- Numeric addition for the sum aggregate. -/
def addVal : Val → Val → Val
  | .int a, .int b => .int (a + b)
  | .float a, .float b => .float (a + b)
  | .int a, .float b => .float ((a : Rat) + b)
  | .float a, .int b => .float (a + (b : Rat))
  | a, _ => a

/-- SQL sum: null on an input with no non-null values, the total otherwise. -/
def sumVals (c : List (Option Val)) : Option Val :=
  match c.filterMap id with
  | [] => none
  | v :: vs => some (vs.foldl addVal v)

/-- Aggregate function tags the source uses. -/
inductive AggFn where
  | count
  | sum
  | avg
  | stddev
  | min
  | max
  | median
  | approxPercentile (p : Rat)

/-- One aggregate call: a function applied to an argument expression,
aliased to an output name. -/
structure AggCall where
  fn : AggFn
  arg : Expr
  outName : String

/-- Result type of an aggregate over an argument of the given type. -/
def aggResultType (fn : AggFn) (argT : DataType) : DataType :=
  match fn with
  | .count => .int64
  | .sum => .int64
  | .avg => .float64
  | .stddev => .float64
  | .min | .max | .median => argT
  | .approxPercentile _ => argT

/-- The abstract execution engine: the aggregate functions whose numeric
results the source does not pin down, each allowed to fail, mirroring the
fallible DataFrame API. -/
structure Engine where
  avgFn : List (Option Val) → Except String (Option Val)
  stddevFn : List (Option Val) → Except String (Option Val)
  minFn : List (Option Val) → Except String (Option Val)
  maxFn : List (Option Val) → Except String (Option Val)
  medianFn : List (Option Val) → Except String (Option Val)
  percentileFn : Rat → List (Option Val) → Except String (Option Val)

/-- Dispatch of one aggregate over an evaluated column. -/
def aggApply (E : Engine) : AggFn → List (Option Val) → Except String (Option Val)
  | .count, c => .ok (some (.int (countSome c)))
  | .sum, c => .ok (sumVals c)
  | .avg, c => E.avgFn c
  | .stddev, c => E.stddevFn c
  | .min, c => E.minFn c
  | .max, c => E.maxFn c
  | .median, c => E.medianFn c
  | .approxPercentile p, c => E.percentileFn p c

/-- Evaluates the aggregate calls left to right, stopping at the first
failure. -/
def aggColumns (E : Engine) (df : DataFrame) : List AggCall → Except String (List (Option Val))
  | [] => .ok []
  | a :: as =>
    match aggApply E a.fn (df.rows.map (fun r => evalExpr df.schema r a.arg)) with
    | .error e => .error e
    | .ok v =>
      match aggColumns E df as with
      | .error e => .error e
      | .ok vs => .ok (v :: vs)

/-- Zero-group aggregation: one result row, one column per aggregate call. -/
def aggregateDf (E : Engine) (df : DataFrame) (aggs : List AggCall) : Except String DataFrame :=
  match aggColumns E df aggs with
  | .error e => .error e
  | .ok vs =>
    .ok ⟨aggs.map (fun a => ⟨a.outName, aggResultType a.fn (Expr.dtype df.schema a.arg)⟩), [vs]⟩

/-- Column type after a union of two frames; the engine coerces unequal
numeric types to a common supertype, modeled abstractly as Float64. -/
def unionType (a b : DataType) : DataType := if a = b then a else .float64

/-- Union requires the two column name lists to agree; rows concatenate. -/
def unionDf (a b : DataFrame) : Except String DataFrame :=
  if a.schema.map Field.name = b.schema.map Field.name then
    .ok ⟨List.zipWith (fun fa fb => ⟨fa.name, unionType fa.dtype fb.dtype⟩) a.schema b.schema,
         a.rows ++ b.rows⟩
  else .error "union schema mismatch"

/-- Stable ascending sort of the rows by the named column, nulls last. -/
def sortByCol (df : DataFrame) (n : String) : Except String DataFrame :=
  match colIndex df.schema n with
  | none => .error "sort column not found"
  | some i =>
    .ok ⟨df.schema,
         List.insertionSort (fun r1 r2 => keyLeB (keyAt i r1) (keyAt i r2) = true) df.rows⟩

/-- The statistic methods of the source enum DescribeMethod. -/
inductive DescribeMethod where
  | total
  | nullTotal
  | mean
  | stddev
  | min
  | max
  | median
  | percentile (p : Nat)
  deriving DecidableEq, Repr

/-- Display labels from the fmt::Display implementation. -/
def DescribeMethod.label : DescribeMethod → String
  | .total => "total"
  | .nullTotal => "null_total"
  | .mean => "mean"
  | .stddev => "stddev"
  | .min => "min"
  | .max => "max"
  | .median => "median"
  | .percentile p => "percentile_" ++ toString p

/-- Body of the describe_method macro: aggregate the given function over
every column whose type is numeric, each aliased to its own name. -/
def describeAgg (E : Engine) (fn : AggFn) (df : DataFrame) : Except String DataFrame :=
  aggregateDf E df
    ((df.schema.filter (fun f => f.dtype.isNumeric)).map
      (fun f => ⟨fn, .col f.name, f.name⟩))

def total (E : Engine) (df : DataFrame) : Except String DataFrame := describeAgg E .count df

def mean (E : Engine) (df : DataFrame) : Except String DataFrame := describeAgg E .avg df

def std_div (E : Engine) (df : DataFrame) : Except String DataFrame := describeAgg E .stddev df

def minimum (E : Engine) (df : DataFrame) : Except String DataFrame := describeAgg E .min df

def maximum (E : Engine) (df : DataFrame) : Except String DataFrame := describeAgg E .max df

def med (E : Engine) (df : DataFrame) : Except String DataFrame := describeAgg E .median df

/-- The CASE WHEN indicator the null_total function sums: 1 when the column
value is null, 0 otherwise. -/
def indicatorExpr (n : String) : Expr :=
  .caseWhen (.isNull (.col n)) (.lit (.bool true)) (.lit (.int 1)) (.lit (.int 0))

/-- Source function null_total: sum of the null indicator over every column,
with no numeric filter. -/
def null_total (E : Engine) (df : DataFrame) : Except String DataFrame :=
  aggregateDf E df (df.schema.map (fun f => ⟨.sum, indicatorExpr f.name, f.name⟩))

/-- Source function percentile: approximate percentile over the numeric
columns. -/
def percentile (E : Engine) (df : DataFrame) (p : Rat) : Except String DataFrame :=
  aggregateDf E df
    ((df.schema.filter (fun f => f.dtype.isNumeric)).map
      (fun f => ⟨.approxPercentile p, .col f.name, f.name⟩))

/-- The describer: original dataset, normalized dataset, method list. -/
structure DataFrameDescriber where
  original : DataFrame
  transformed : DataFrame
  methods : List DescribeMethod

/-- The fixed method registry try_new installs. -/
def defaultMethods : List DescribeMethod :=
  [.total, .nullTotal, .mean, .stddev, .min, .max, .median,
   .percentile 25, .percentile 50, .percentile 75]

/-- Normalization projection for one field, first matching rule wins:
temporal casts to Float64, numeric passes through, list types map to the
array length, everything else casts to text and takes the string length;
the result is aliased back to the field name. -/
def normalizeExpr (f : Field) : Expr :=
  .alias
    (if f.dtype.isTemporal then .cast (.col f.name) .float64
     else if f.dtype.isNumeric then .col f.name
     else if f.dtype.isListLike then .arrayLength (.col f.name)
     else .strLength (.cast (.col f.name) .utf8))
    f.name

/-- Constructor DataFrameDescriber::try_new: normalize eagerly, install the
fixed method registry. -/
def try_new (df : DataFrame) : Except String DataFrameDescriber :=
  match selectDf df (df.schema.map normalizeExpr) with
  | .error e => .error e
  | .ok transformed => .ok ⟨df, transformed, defaultMethods⟩

/-- Result of a describe call: a returned report, a returned error, or a
panic raised by one of the unwrap calls inside the fold. -/
inductive Outcome where
  | ok (df : DataFrame)
  | err (message : String)
  | panicked (message : String)

/-- Dispatch of one method to its statistic function, as in the fold match. -/
def statDf (E : Engine) (df : DataFrame) : DescribeMethod → Except String DataFrame
  | .total => total E df
  | .nullTotal => null_total E df
  | .mean => mean E df
  | .stddev => std_div E df
  | .min => minimum E df
  | .max => maximum E df
  | .median => med E df
  | .percentile p => percentile E df ((p : Rat) / 100)

/-- The projection prepending the label column: a literal aliased describe
column followed by every column of the statistic row. -/
def prependLabel (m : DescribeMethod) (st : DataFrame) : Except String DataFrame :=
  selectDf st (.alias (.lit (.str m.label)) "describe" :: st.schema.map (fun f => .col f.name))

/-- The fold of do_describe. Every Except failure inside the fold is
unwrapped in the source, so it surfaces here as a panicked outcome. -/
def doDescribeGo (E : Engine) (tdf : DataFrame) :
    List DescribeMethod → Option DataFrame → Outcome
  | [], none => .err "No statistics found"
  | [], some acc => .ok acc
  | m :: ms, acc =>
    match statDf E tdf m with
    | .error e => .panicked e
    | .ok st =>
      match prependLabel m st with
      | .error e => .panicked e
      | .ok st2 =>
        match acc with
        | none => doDescribeGo E tdf ms (some st2)
        | some a =>
          match unionDf a st2 with
          | .error e => .panicked e
          | .ok u => doDescribeGo E tdf ms (some u)

/-- Method DataFrameDescriber::do_describe. -/
def do_describe (E : Engine) (d : DataFrameDescriber) : Outcome :=
  doDescribeGo E d.transformed d.methods none

/-- The leading report field cast_back constructs. -/
def describeField : Field := ⟨"describe", .utf8⟩

/-- Reverse-cast projection for one field: temporal casts back to the
original type, list types cast to Int32, everything else is the identity
column; aliased to the field name. -/
def castBackExpr (f : Field) : Expr :=
  .alias
    (if f.dtype.isTemporal then .cast (.col f.name) f.dtype
     else if f.dtype.isListLike then .cast (.col f.name) .int32
     else .col f.name)
    f.name

/-- Method DataFrameDescriber::cast_back: reverse-cast each column keyed by
the original schema, then sort ascending by the describe column. -/
def cast_back (d : DataFrameDescriber) (df : DataFrame) : Except String DataFrame :=
  match selectDf df ((describeField :: d.original.schema).map castBackExpr) with
  | .error e => .error e
  | .ok out => sortByCol out "describe"

/-- Method DataFrameDescriber::describe: run the fold, then cast back.
A do_describe error propagates; a panic aborts everything. -/
def describeRun (E : Engine) (d : DataFrameDescriber) : Outcome :=
  match do_describe E d with
  | .ok df =>
    match cast_back d df with
    | .ok r => .ok r
    | .error e => .err e
  | .err e => .err e
  | .panicked e => .panicked e

/-- Type of the named column of a schema. -/
def lookupT (schema : List Field) (n : String) : Option DataType :=
  (schema.find? (fun f => f.name = n)).map Field.dtype

/-- First non-null value of a column. -/
def firstVal (c : List (Option Val)) : Option Val := (c.filterMap id).head?

/-- A concrete engine instance used to instantiate theorems quantified over
the abstract engine. Every call succeeds; each aggregate returns null on an
input with no non-null values and the first non-null value otherwise, which
agrees with the true aggregate on every column with at most one non-null
value — all the concrete instantiations below need. -/
def simpleEngine : Engine :=
  ⟨fun c => .ok (firstVal c),
   fun c => .ok (firstVal c),
   fun c => .ok (firstVal c),
   fun c => .ok (firstVal c),
   fun c => .ok (firstVal c),
   fun _ c => .ok (firstVal c)⟩

/-- An engine instance whose parametric aggregates all fail, used to observe
how describe propagates an aggregation failure. -/
def failEngine : Engine :=
  ⟨fun _ => .error "avg aggregate error",
   fun _ => .error "stddev aggregate error",
   fun _ => .error "min aggregate error",
   fun _ => .error "max aggregate error",
   fun _ => .error "median aggregate error",
   fun _ _ => .error "percentile aggregate error"⟩

/-- Concrete one-column numeric dataset. -/
def dfA : DataFrame := ⟨[⟨"a", .int32⟩], [[some (.int 1)]]⟩

/-- Describer built by try_new over dfA. -/
def descA : DataFrameDescriber :=
  match try_new dfA with
  | .ok d => d
  | .error _ => ⟨dfA, dfA, []⟩

/-- Report of the full pipeline over dfA under the simple engine. -/
def reportA : DataFrame :=
  match describeRun simpleEngine descA with
  | .ok r => r
  | _ => default

/-- Concrete one-column temporal dataset. -/
def dfT : DataFrame := ⟨[⟨"ts", .timestamp⟩], [[some (.temporal 100)]]⟩

def descT : DataFrameDescriber :=
  match try_new dfT with
  | .ok d => d
  | .error _ => ⟨dfT, dfT, []⟩

def reportT : DataFrame :=
  match describeRun simpleEngine descT with
  | .ok r => r
  | _ => default

/-- Concrete one-column textual dataset with a null entry. -/
def dfS : DataFrame := ⟨[⟨"s", .utf8⟩], [[some (.str "ab")], [none]]⟩

def descS : DataFrameDescriber :=
  match try_new dfS with
  | .ok d => d
  | .error _ => ⟨dfS, dfS, []⟩

/-- Concrete dataset with two nulls out of three rows. -/
def dfNulls : DataFrame := ⟨[⟨"a", .int32⟩], [[some (.int 5)], [none], [none]]⟩

/-- Concrete dataset with a column but zero rows. -/
def dfNoRows : DataFrame := ⟨[⟨"a", .int32⟩], []⟩

/-- A describer state with an empty method list. -/
def descNoMethods : DataFrameDescriber := ⟨dfA, dfA, []⟩

/-- A describer state whose only method is Mean. -/
def descMeanOnly : DataFrameDescriber := ⟨dfA, dfA, [.mean]⟩

/- ------------------------------------------------------------------ -/
/- Helper lemmas                                                       -/
/- ------------------------------------------------------------------ -/

lemma colIndex_isSome_of_mem {schema : List Field} {f : Field} (h : f ∈ schema) :
    (colIndex schema f.name).isSome = true := by
  induction schema with
  | nil => cases h
  | cons g gs ih =>
    by_cases hg : g.name = f.name
    · simp [colIndex, hg]
    · rcases List.mem_cons.mp h with rfl | hmem
      · exact absurd rfl hg
      · rw [colIndex, if_neg hg]
        cases hci : colIndex gs f.name with
        | none => rw [hci] at ih; simpa [hci] using ih hmem
        | some i => simp

lemma colIndex_cons_self {f : Field} {fs : List Field} :
    colIndex (f :: fs) f.name = some 0 := by
  simp [colIndex]

lemma find?_self_of_nodup {l : List Field} {g : Field} (hg : g ∈ l)
    (hn : (l.map Field.name).Nodup) : l.find? (fun f => f.name = g.name) = some g := by
  induction l with
  | nil => cases hg
  | cons a t ih =>
    rw [List.map_cons, List.nodup_cons] at hn
    rcases List.mem_cons.mp hg with rfl | hmem
    · exact List.find?_cons_of_pos _ (by simp)
    · by_cases ha : a.name = g.name
      · exact absurd (ha ▸ List.mem_map_of_mem Field.name hmem) hn.1
      · rw [List.find?_cons_of_neg _ (by simp [ha])]
        exact ih hmem hn.2

lemma find?_map_name {l : List Field} (F : Field → Field) (hF : ∀ x, (F x).name = x.name)
    {g : Field} (hg : g ∈ l) (hn : (l.map Field.name).Nodup) :
    (l.map F).find? (fun f => f.name = g.name) = some (F g) := by
  induction l with
  | nil => cases hg
  | cons a t ih =>
    rw [List.map_cons, List.nodup_cons] at hn
    rcases List.mem_cons.mp hg with rfl | hmem
    · rw [List.map_cons]
      exact List.find?_cons_of_pos _ (by simp [hF])
    · by_cases ha : a.name = g.name
      · exact absurd (ha ▸ List.mem_map_of_mem Field.name hmem) hn.1
      · rw [List.map_cons, List.find?_cons_of_neg _ (by simp [hF, ha])]
        exact ih hmem hn.2

lemma selectDf_ok {df : DataFrame} {es : List Expr} {out : DataFrame}
    (h : selectDf df es = .ok out) :
    out.schema = es.map (fun e => ⟨e.outName, e.dtype df.schema⟩) ∧
    out.rows = df.rows.map (fun r => es.map (evalExpr df.schema r)) := by
  unfold selectDf at h
  split at h
  · cases h; exact ⟨rfl, rfl⟩
  · cases h

lemma selectDf_of_refs {df : DataFrame} {es : List Expr}
    (h : ∀ e ∈ es, ∀ n ∈ e.colRefs, (colIndex df.schema n).isSome = true) :
    selectDf df es = .ok ⟨es.map (fun e => ⟨e.outName, e.dtype df.schema⟩),
      df.rows.map (fun r => es.map (evalExpr df.schema r))⟩ := by
  unfold selectDf
  rw [if_pos]
  rw [List.all_eq_true]
  intro e he
  rw [List.all_eq_true]
  exact h e he

lemma aggColumns_length {E : Engine} {df : DataFrame} :
    ∀ {aggs : List AggCall} {vs : List (Option Val)},
      aggColumns E df aggs = .ok vs → vs.length = aggs.length := by
  intro aggs
  induction aggs with
  | nil => intro vs h; cases h; rfl
  | cons a as ih =>
    intro vs h
    unfold aggColumns at h
    split at h
    · cases h
    · split at h
      · cases h
      · cases h
        simp only [List.length_cons]
        rw [ih (by assumption)]

lemma aggregateDf_ok {E : Engine} {df : DataFrame} {aggs : List AggCall} {st : DataFrame}
    (h : aggregateDf E df aggs = .ok st) :
    st.schema = aggs.map (fun a => ⟨a.outName, aggResultType a.fn (Expr.dtype df.schema a.arg)⟩) ∧
    ∃ vs, st.rows = [vs] ∧ vs.length = aggs.length := by
  unfold aggregateDf at h
  split at h
  · cases h
  · cases h
    exact ⟨rfl, _, rfl, aggColumns_length (by assumption)⟩

lemma prependLabel_eq (m : DescribeMethod) (st : DataFrame) :
    prependLabel m st = .ok ⟨(⟨"describe", .utf8⟩ : Field) ::
        st.schema.map (fun f => ⟨f.name, Expr.dtype st.schema (.col f.name)⟩),
      st.rows.map (fun r => some (.str m.label) ::
        st.schema.map (fun f => evalExpr st.schema r (.col f.name)))⟩ := by
  unfold prependLabel
  rw [selectDf_of_refs]
  · congr 1
    simp [List.map_map, Expr.outName, Expr.dtype, evalExpr, Val.litType]
  · intro e he n hn
    rcases List.mem_cons.mp he with rfl | he
    · simp [Expr.colRefs] at hn
    · obtain ⟨f, hf, rfl⟩ := List.mem_map.mp he
      have hn' : n = f.name := by simpa [Expr.colRefs] using hn
      subst hn'
      exact colIndex_isSome_of_mem hf

lemma zipWith_union_names : ∀ (A B : List Field), A.length = B.length →
    (List.zipWith (fun fa fb => (⟨fa.name, unionType fa.dtype fb.dtype⟩ : Field)) A B).map
        Field.name = A.map Field.name := by
  intro A
  induction A with
  | nil => intro B _; simp
  | cons a t ih =>
    intro B h
    cases B with
    | nil => cases h
    | cons b s =>
      simp only [List.length_cons, Nat.add_right_cancel_iff] at h
      simp only [List.zipWith, List.map_cons]
      rw [ih s h]

lemma unionDf_ok {a b u : DataFrame} (h : unionDf a b = .ok u) :
    a.schema.map Field.name = b.schema.map Field.name ∧
    u.schema.map Field.name = a.schema.map Field.name ∧
    u.rows = a.rows ++ b.rows ∧
    u.schema = List.zipWith (fun fa fb => ⟨fa.name, unionType fa.dtype fb.dtype⟩)
      a.schema b.schema := by
  unfold unionDf at h
  split at h
  · cases h
    have hnames : a.schema.map Field.name = b.schema.map Field.name := by assumption
    have hlen : a.schema.length = b.schema.length := by
      have h2 := congrArg List.length hnames
      simpa using h2
    exact ⟨hnames, zipWith_union_names _ _ hlen, rfl, rfl⟩
  · cases h

lemma union_head {a b u : DataFrame} (h : unionDf a b = .ok u)
    {fa fb : Field} (ha : a.schema.head? = some fa) (hb : b.schema.head? = some fb) :
    u.schema.head? = some ⟨fa.name, unionType fa.dtype fb.dtype⟩ := by
  obtain ⟨-, -, -, hz⟩ := unionDf_ok h
  cases hA : a.schema with
  | nil => rw [hA] at ha; cases ha
  | cons x xs =>
    cases hB : b.schema with
    | nil => rw [hB] at hb; cases hb
    | cons y ys =>
      rw [hA, List.head?_cons] at ha
      rw [hB, List.head?_cons] at hb
      injection ha with ha
      injection hb with hb
      subst ha
      subst hb
      rw [hz, hA, hB]
      simp [List.zipWith]

lemma statDf_ok {E : Engine} {tdf : DataFrame} {m : DescribeMethod} {st : DataFrame}
    (h : statDf E tdf m = .ok st) :
    (∃ vs, st.rows = [vs]) ∧
    st.schema.map Field.name =
      (if m = .nullTotal then tdf.schema.map Field.name
       else (tdf.schema.filter (fun f => f.dtype.isNumeric)).map Field.name) := by
  cases m with
  | total =>
    unfold statDf total describeAgg at h
    obtain ⟨hs, vs, hr, -⟩ := aggregateDf_ok h
    exact ⟨⟨vs, hr⟩, by simp [hs, List.map_map]⟩
  | nullTotal =>
    unfold statDf null_total at h
    obtain ⟨hs, vs, hr, -⟩ := aggregateDf_ok h
    exact ⟨⟨vs, hr⟩, by simp [hs, List.map_map]⟩
  | mean =>
    unfold statDf mean describeAgg at h
    obtain ⟨hs, vs, hr, -⟩ := aggregateDf_ok h
    exact ⟨⟨vs, hr⟩, by simp [hs, List.map_map]⟩
  | stddev =>
    unfold statDf std_div describeAgg at h
    obtain ⟨hs, vs, hr, -⟩ := aggregateDf_ok h
    exact ⟨⟨vs, hr⟩, by simp [hs, List.map_map]⟩
  | min =>
    unfold statDf minimum describeAgg at h
    obtain ⟨hs, vs, hr, -⟩ := aggregateDf_ok h
    exact ⟨⟨vs, hr⟩, by simp [hs, List.map_map]⟩
  | max =>
    unfold statDf maximum describeAgg at h
    obtain ⟨hs, vs, hr, -⟩ := aggregateDf_ok h
    exact ⟨⟨vs, hr⟩, by simp [hs, List.map_map]⟩
  | median =>
    unfold statDf med describeAgg at h
    obtain ⟨hs, vs, hr, -⟩ := aggregateDf_ok h
    exact ⟨⟨vs, hr⟩, by simp [hs, List.map_map]⟩
  | percentile p =>
    unfold statDf percentile at h
    obtain ⟨hs, vs, hr, -⟩ := aggregateDf_ok h
    exact ⟨⟨vs, hr⟩, by simp [hs, List.map_map]⟩

lemma map_length_eq {A B : List Field} (h : A.map Field.name = B.map Field.name) :
    A.length = B.length := by
  have h2 := congrArg List.length h
  simpa using h2

/-- Shape of the frame prependLabel produces. -/
def prepended (m : DescribeMethod) (st : DataFrame) : DataFrame :=
  ⟨(⟨"describe", .utf8⟩ : Field) ::
      st.schema.map (fun f => ⟨f.name, Expr.dtype st.schema (.col f.name)⟩),
    st.rows.map (fun r => some (.str m.label) ::
      st.schema.map (fun f => evalExpr st.schema r (.col f.name)))⟩

lemma go_ok {E : Engine} {tdf : DataFrame} :
    ∀ {ms : List DescribeMethod} {acc r : DataFrame},
      doDescribeGo E tdf ms (some acc) = .ok r →
      r.schema.map Field.name = acc.schema.map Field.name ∧
      (acc.schema.head? = some ⟨"describe", .utf8⟩ →
        r.schema.head? = some ⟨"describe", .utf8⟩) ∧
      r.rows.map (keyAt 0) =
        acc.rows.map (keyAt 0) ++ ms.map (fun m => some (.str m.label)) ∧
      r.rows.length = acc.rows.length + ms.length ∧
      ((∀ row ∈ acc.rows, row.length = acc.schema.length) →
        ∀ row ∈ r.rows, row.length = r.schema.length) := by
  intro ms
  induction ms with
  | nil =>
    intro acc r h
    have h2 : Outcome.ok acc = Outcome.ok r := h
    have hr : acc = r := Outcome.ok.inj h2
    subst hr
    exact ⟨rfl, fun h3 => h3, by simp, by simp, fun h3 => h3⟩
  | cons m ms ih =>
    intro acc r h
    rw [doDescribeGo] at h
    split at h
    · cases h
    · rename_i st hst
      rw [prependLabel_eq m st] at h
      have hX : (match some acc with
          | none => doDescribeGo E tdf ms (some (prepended m st))
          | some a =>
            match unionDf a (prepended m st) with
            | .error e => Outcome.panicked e
            | .ok u => doDescribeGo E tdf ms (some u)) = .ok r := h
      simp only [] at hX
      obtain ⟨vs, hvs⟩ := (statDf_ok hst).1
      cases hu : unionDf acc (prepended m st) with
      | error e => rw [hu] at hX; cases hX
      | ok u =>
        rw [hu] at hX
        obtain ⟨ihn, ihh, ihk, ihl, ihw⟩ := ih hX
        obtain ⟨hun, hun2, hur, -⟩ := unionDf_ok hu
        have hXhead : (prepended m st).schema.head? = some ⟨"describe", .utf8⟩ := rfl
        have hXrows : (prepended m st).rows.map (keyAt 0) = [some (.str m.label)] := by
          simp [prepended, hvs, keyAt]
        have hXlen : (prepended m st).rows.length = 1 := by
          simp [prepended, hvs]
        have hulen : u.schema.length = acc.schema.length := map_length_eq hun2
        have hXslen : (prepended m st).schema.length = acc.schema.length :=
          (map_length_eq hun).symm
        refine ⟨?_, ?_, ?_, ?_, ?_⟩
        · rw [ihn, hun2]
        · intro hh
          refine ihh ?_
          have h5 := union_head hu hh hXhead
          simpa [unionType] using h5
        · rw [ihk, hur, List.map_append, hXrows]
          simp
        · rw [ihl, hur, List.length_append, hXlen]
          simp [List.length_cons]
          omega
        · intro hacc
          refine ihw ?_
          intro row hrow
          rw [hur] at hrow
          rcases List.mem_append.mp hrow with hrow | hrow
          · exact (hacc row hrow).trans hulen.symm
          · simp only [prepended, List.mem_map] at hrow
            obtain ⟨r0, -, hr0⟩ := hrow
            rw [← hr0]
            simp only [List.length_cons, List.length_map]
            rw [map_length_eq hun2, ← hXslen]
            simp [prepended]

lemma go_cons_ok {E : Engine} {tdf : DataFrame} {m : DescribeMethod}
    {ms : List DescribeMethod} {r : DataFrame}
    (h : doDescribeGo E tdf (m :: ms) none = .ok r) :
    ∃ st, statDf E tdf m = .ok st ∧
      doDescribeGo E tdf ms (some (prepended m st)) = .ok r := by
  rw [doDescribeGo] at h
  split at h
  · cases h
  · rename_i st hst
    rw [prependLabel_eq m st] at h
    exact ⟨st, hst, h⟩

lemma do_describe_ok {E : Engine} {d : DataFrameDescriber} {rdf : DataFrame}
    (h : do_describe E d = .ok rdf) :
    rdf.schema.head? = some ⟨"describe", .utf8⟩ ∧
    rdf.rows.map (keyAt 0) = d.methods.map (fun m => some (.str m.label)) ∧
    rdf.rows.length = d.methods.length ∧
    (∀ row ∈ rdf.rows, row.length = rdf.schema.length) := by
  unfold do_describe at h
  cases hm : d.methods with
  | nil =>
    rw [hm] at h
    exact Outcome.noConfusion (show Outcome.err "No statistics found" = Outcome.ok rdf from h)
  | cons m ms =>
    rw [hm] at h
    obtain ⟨st, hst, hgo⟩ := go_cons_ok h
    obtain ⟨hn, hh, hk, hl, hw⟩ := go_ok hgo
    obtain ⟨vs, hvs⟩ := (statDf_ok hst).1
    have hXrows : (prepended m st).rows.map (keyAt 0) = [some (.str m.label)] := by
      simp [prepended, hvs, keyAt]
    have hXlen : (prepended m st).rows.length = 1 := by simp [prepended, hvs]
    refine ⟨hh rfl, ?_, ?_, ?_⟩
    · rw [hk, hXrows]
      simp
    · rw [hl, hXlen, List.length_cons]
      omega
    · refine hw ?_
      intro row hrow
      simp only [prepended, List.mem_map] at hrow
      obtain ⟨r0, -, hr0⟩ := hrow
      rw [← hr0]
      simp [prepended]

lemma map_orderedInsert (key : List (Option Val) → Option Val) (a : List (Option Val)) :
    ∀ l : List (List (Option Val)),
      (List.orderedInsert (fun r1 r2 => keyLeB (key r1) (key r2) = true) a l).map key
        = List.orderedInsert (fun x y => keyLeB x y = true) (key a) (l.map key) := by
  intro l
  induction l with
  | nil => rfl
  | cons b t ih =>
    simp only [List.orderedInsert, List.map_cons]
    by_cases hc : keyLeB (key a) (key b) = true
    · rw [if_pos hc, if_pos hc]
      simp
    · rw [if_neg hc, if_neg hc]
      rw [List.map_cons, ih]

lemma map_insertionSort (key : List (Option Val) → Option Val) :
    ∀ l : List (List (Option Val)),
      (List.insertionSort (fun r1 r2 => keyLeB (key r1) (key r2) = true) l).map key
        = List.insertionSort (fun x y => keyLeB x y = true) (l.map key) := by
  intro l
  induction l with
  | nil => rfl
  | cons a t ih =>
    simp only [List.insertionSort, List.map_cons]
    rw [map_orderedInsert, ih]

lemma colIndex_describe {schema : List Field}
    (hh : schema.head? = some ⟨"describe", .utf8⟩) :
    colIndex schema "describe" = some 0 := by
  cases hs : schema with
  | nil => rw [hs] at hh; cases hh
  | cons f fs =>
    rw [hs, List.head?_cons] at hh
    injection hh with hh
    subst hh
    simp [colIndex]

lemma find?_describe {schema : List Field}
    (hh : schema.head? = some ⟨"describe", .utf8⟩) :
    schema.find? (fun f => f.name = "describe") = some ⟨"describe", .utf8⟩ := by
  cases hs : schema with
  | nil => rw [hs] at hh; cases hh
  | cons f fs =>
    rw [hs, List.head?_cons] at hh
    injection hh with hh
    subst hh
    exact List.find?_cons_of_pos _ (by simp)

lemma sortByCol_describe {df out : DataFrame}
    (hh : df.schema.head? = some ⟨"describe", .utf8⟩)
    (h : sortByCol df "describe" = .ok out) :
    out.schema = df.schema ∧
    out.rows = List.insertionSort
      (fun r1 r2 => keyLeB (keyAt 0 r1) (keyAt 0 r2) = true) df.rows := by
  unfold sortByCol at h
  rw [colIndex_describe hh] at h
  cases h
  exact ⟨rfl, rfl⟩

lemma cast_back_ok {d : DataFrameDescriber} {rdf out : DataFrame}
    (h : cast_back d rdf = .ok out)
    (hdesc : rdf.schema.head? = some ⟨"describe", .utf8⟩) :
    out.schema = (⟨"describe", .utf8⟩ : Field) ::
      d.original.schema.map (fun g => ⟨g.name, Expr.dtype rdf.schema (castBackExpr g)⟩) ∧
    out.rows.length = rdf.rows.length ∧
    out.rows.map (keyAt 0) =
      List.insertionSort (fun x y => keyLeB x y = true) (rdf.rows.map (keyAt 0)) ∧
    (∀ row ∈ out.rows, row.length = out.schema.length) := by
  unfold cast_back at h
  cases hsel : selectDf rdf ((describeField :: d.original.schema).map castBackExpr) with
  | error e => rw [hsel] at h; cases h
  | ok sel =>
    rw [hsel] at h
    obtain ⟨hselS, hselR⟩ := selectDf_ok hsel
    have hheadT : Expr.dtype rdf.schema (castBackExpr describeField) = .utf8 := by
      show Expr.dtype rdf.schema (.alias (.col "describe") "describe") = .utf8
      simp [Expr.dtype, find?_describe hdesc]
    have hselS2 : sel.schema = (⟨"describe", .utf8⟩ : Field) ::
        d.original.schema.map (fun g => ⟨g.name, Expr.dtype rdf.schema (castBackExpr g)⟩) := by
      rw [hselS, List.map_map, List.map_cons]
      refine congrArg₂ List.cons ?_ ?_
      · show (⟨(castBackExpr describeField).outName,
            Expr.dtype rdf.schema (castBackExpr describeField)⟩ : Field) = _
        rw [hheadT]
        rfl
      · refine List.map_congr_left ?_
        intro g _
        show (⟨(castBackExpr g).outName, Expr.dtype rdf.schema (castBackExpr g)⟩ : Field) = _
        rfl
    have hselHead : sel.schema.head? = some ⟨"describe", .utf8⟩ := by
      rw [hselS2]
      rfl
    obtain ⟨hoS, hoR⟩ := sortByCol_describe hselHead h
    have hkeysel : sel.rows.map (keyAt 0) = rdf.rows.map (keyAt 0) := by
      rw [hselR, List.map_map]
      refine List.map_congr_left ?_
      intro r _
      show keyAt 0 (((describeField :: d.original.schema).map castBackExpr).map
        (evalExpr rdf.schema r)) = keyAt 0 r
      rw [List.map_cons, List.map_cons]
      show evalExpr rdf.schema r (castBackExpr describeField) = keyAt 0 r
      show evalExpr rdf.schema r (.alias (.col "describe") "describe") = keyAt 0 r
      simp [evalExpr, colIndex_describe hdesc, keyAt]
    refine ⟨hoS ▸ hselS2, ?_, ?_, ?_⟩
    · rw [hoR, (List.perm_insertionSort _ _).length_eq, hselR]
      simp
    · rw [hoR, map_insertionSort, hkeysel]
    · intro row hrow
      rw [hoR] at hrow
      have hrow2 : row ∈ sel.rows := ((List.perm_insertionSort _ _).mem_iff).mp hrow
      rw [hselR] at hrow2
      obtain ⟨r0, -, hr0⟩ := List.mem_map.mp hrow2
      rw [← hr0, hoS, hselS]
      simp

lemma describeRun_ok {E : Engine} {d : DataFrameDescriber} {r : DataFrame}
    (h : describeRun E d = .ok r) :
    ∃ rdf, do_describe E d = .ok rdf ∧ cast_back d rdf = .ok r := by
  unfold describeRun at h
  cases hd : do_describe E d with
  | ok rdf =>
    rw [hd] at h
    have h2 : (match cast_back d rdf with
      | .ok r2 => Outcome.ok r2
      | .error e => Outcome.err e) = Outcome.ok r := h
    cases hc : cast_back d rdf with
    | ok r2 =>
      rw [hc] at h2
      have hr : r2 = r := Outcome.ok.inj h2
      subst hr
      exact ⟨rdf, rfl, hc⟩
    | error e => rw [hc] at h2; cases h2
  | err e =>
    rw [hd] at h
    exact Outcome.noConfusion (show Outcome.err e = Outcome.ok r from h)
  | panicked e =>
    rw [hd] at h
    exact Outcome.noConfusion (show Outcome.panicked e = Outcome.ok r from h)

lemma normalizeExpr_refs (f : Field) : (normalizeExpr f).colRefs = [f.name] := by
  unfold normalizeExpr
  by_cases h1 : f.dtype.isTemporal = true <;>
    by_cases h2 : f.dtype.isNumeric = true <;>
      by_cases h3 : f.dtype.isListLike = true <;>
        simp [h1, h2, h3, Expr.colRefs]

lemma try_new_eq (df : DataFrame) :
    try_new df = .ok ⟨df,
      ⟨df.schema.map (fun g => ⟨g.name, Expr.dtype df.schema (normalizeExpr g)⟩),
        df.rows.map (fun r => df.schema.map (fun g => evalExpr df.schema r (normalizeExpr g)))⟩,
      defaultMethods⟩ := by
  unfold try_new
  rw [selectDf_of_refs]
  · refine congrArg Except.ok (congrArg₂ (DataFrameDescriber.mk df) ?_ rfl)
    refine congrArg₂ DataFrame.mk ?_ ?_
    · rw [List.map_map]
      refine List.map_congr_left ?_
      intro g _
      show (⟨(normalizeExpr g).outName, Expr.dtype df.schema (normalizeExpr g)⟩ : Field) = _
      rfl
    · refine List.map_congr_left ?_
      intro r _
      rw [List.map_map]
      rfl
  · intro e he n hn
    obtain ⟨g, hg, rfl⟩ := List.mem_map.mp he
    rw [normalizeExpr_refs] at hn
    have hn2 : n = g.name := by simpa using hn
    subst hn2
    exact colIndex_isSome_of_mem hg

lemma try_new_parts {df : DataFrame} {d : DataFrameDescriber} (h : try_new df = .ok d) :
    d.original = df ∧ d.methods = defaultMethods ∧
    d.transformed.schema = df.schema.map
      (fun g => ⟨g.name, Expr.dtype df.schema (normalizeExpr g)⟩) ∧
    d.transformed.rows = df.rows.map
      (fun r => df.schema.map (fun g => evalExpr df.schema r (normalizeExpr g))) := by
  have hD := Except.ok.inj ((try_new_eq df).symm.trans h)
  subst hD
  exact ⟨rfl, rfl, rfl, rfl⟩

lemma normalize_dtype_temporal {schema : List Field} {g : Field}
    (h : g.dtype.isTemporal = true) :
    Expr.dtype schema (normalizeExpr g) = .float64 := by
  unfold normalizeExpr
  simp [h, Expr.dtype]

lemma normalize_dtype_numeric {schema : List Field} {g : Field} (hg : g ∈ schema)
    (hn : (schema.map Field.name).Nodup)
    (h1 : g.dtype.isTemporal = false) (h2 : g.dtype.isNumeric = true) :
    Expr.dtype schema (normalizeExpr g) = g.dtype := by
  unfold normalizeExpr
  simp [h1, h2, Expr.dtype, find?_self_of_nodup hg hn]

lemma normalize_dtype_listlike {schema : List Field} {g : Field}
    (h1 : g.dtype.isTemporal = false) (h2 : g.dtype.isNumeric = false)
    (h3 : g.dtype.isListLike = true) :
    Expr.dtype schema (normalizeExpr g) = .uint64 := by
  unfold normalizeExpr
  simp [h1, h2, h3, Expr.dtype]

lemma normalize_dtype_other {schema : List Field} {g : Field}
    (h1 : g.dtype.isTemporal = false) (h2 : g.dtype.isNumeric = false)
    (h3 : g.dtype.isListLike = false) :
    Expr.dtype schema (normalizeExpr g) = .int32 := by
  unfold normalizeExpr
  simp [h1, h2, h3, Expr.dtype]

lemma normalize_dtype_numeric_of_mem {schema : List Field}
    (hn : (schema.map Field.name).Nodup) {g : Field} (hg : g ∈ schema) :
    (Expr.dtype schema (normalizeExpr g)).isNumeric = true := by
  by_cases h1 : g.dtype.isTemporal = true
  · rw [normalize_dtype_temporal h1]; rfl
  · have h1f : g.dtype.isTemporal = false := by simpa using h1
    by_cases h2 : g.dtype.isNumeric = true
    · rw [normalize_dtype_numeric hg hn h1f h2]; exact h2
    · have h2f : g.dtype.isNumeric = false := by simpa using h2
      by_cases h3 : g.dtype.isListLike = true
      · rw [normalize_dtype_listlike h1f h2f h3]; rfl
      · have h3f : g.dtype.isListLike = false := by simpa using h3
        rw [normalize_dtype_other h1f h2f h3f]; rfl

lemma transformed_all_numeric {df : DataFrame} {d : DataFrameDescriber}
    (h : try_new df = .ok d) (hn : (df.schema.map Field.name).Nodup) :
    ∀ f ∈ d.transformed.schema, f.dtype.isNumeric = true := by
  obtain ⟨-, -, hs, -⟩ := try_new_parts h
  intro f hf
  rw [hs] at hf
  obtain ⟨g, hg, rfl⟩ := List.mem_map.mp hf
  exact normalize_dtype_numeric_of_mem hn hg

lemma transformed_filter_full {df : DataFrame} {d : DataFrameDescriber}
    (h : try_new df = .ok d) (hn : (df.schema.map Field.name).Nodup) :
    d.transformed.schema.filter (fun f => f.dtype.isNumeric) = d.transformed.schema :=
  List.filter_eq_self.mpr (transformed_all_numeric h hn)

lemma transformed_names {df : DataFrame} {d : DataFrameDescriber}
    (h : try_new df = .ok d) :
    d.transformed.schema.map Field.name = df.schema.map Field.name := by
  obtain ⟨-, -, hs, -⟩ := try_new_parts h
  rw [hs, List.map_map]
  exact List.map_congr_left (fun g _ => rfl)

lemma aggColumns_count {E : Engine} {df : DataFrame} :
    ∀ l : List Field,
      aggColumns E df (l.map (fun f => ⟨.count, .col f.name, f.name⟩))
        = .ok (l.map (fun f => some (.int (countSome (colVals df f.name))))) := by
  intro l
  induction l with
  | nil => rfl
  | cons f t ih =>
    rw [List.map_cons, List.map_cons]
    simp only [aggColumns, aggApply]
    rw [ih]
    rfl

lemma total_eq (E : Engine) (df : DataFrame)
    (hfull : df.schema.filter (fun f => f.dtype.isNumeric) = df.schema) :
    total E df = .ok ⟨df.schema.map (fun f => ⟨f.name, .int64⟩),
      [df.schema.map (fun f => some (.int (countSome (colVals df f.name))))]⟩ := by
  unfold total describeAgg aggregateDf
  rw [hfull, aggColumns_count]
  show Except.ok _ = _
  refine congrArg Except.ok (congrArg₂ DataFrame.mk ?_ rfl)
  rw [List.map_map]
  exact List.map_congr_left (fun f _ => rfl)

lemma eval_indicator (schema : List Field) (r : List (Option Val)) (n : String) :
    evalExpr schema r (indicatorExpr n)
      = some (.int (if (evalExpr schema r (.col n)).isNone then 1 else 0)) := by
  have h : evalExpr schema r (indicatorExpr n)
      = (if valEqB (.bool (evalExpr schema r (.col n)).isNone) (.bool true)
         then some (.int 1) else some (.int 0)) := rfl
  rw [h]
  cases hx : (evalExpr schema r (.col n)).isNone <;> simp [valEqB, hx]

lemma indicator_col (df : DataFrame) (n : String) :
    df.rows.map (fun r => evalExpr df.schema r (indicatorExpr n))
      = (colVals df n).map (fun v => some (.int (if v.isNone then 1 else 0))) := by
  unfold colVals
  rw [List.map_map]
  refine List.map_congr_left ?_
  intro r _
  exact eval_indicator df.schema r n

lemma foldl_addVal_int : ∀ (l : List Int) (a : Int),
    (l.map Val.int).foldl addVal (.int a) = .int (a + l.sum) := by
  intro l
  induction l with
  | nil => intro a; simp
  | cons b t ih =>
    intro a
    rw [List.map_cons, List.foldl_cons]
    show (t.map Val.int).foldl addVal (.int (a + b)) = _
    rw [ih, List.sum_cons]
    exact congrArg Val.int (by ring)

lemma sum_indicator : ∀ (t : List (Option Val)),
    (t.map (fun v => if v.isNone then (1 : Int) else 0)).sum = (countNone t : Int) := by
  intro t
  induction t with
  | nil => simp [countNone]
  | cons v t ih =>
    rw [List.map_cons, List.sum_cons, ih]
    unfold countNone
    rw [List.countP_cons]
    by_cases hv : v.isNone = true <;> simp [hv] <;> omega

lemma sumVals_indicator : ∀ (c : List (Option Val)), c ≠ [] →
    sumVals (c.map (fun v => some (.int (if v.isNone then 1 else 0))))
      = some (.int (countNone c)) := by
  intro c hc
  cases c with
  | nil => exact absurd rfl hc
  | cons v t =>
    unfold sumVals
    rw [List.map_cons, List.filterMap_cons]
    simp only [id]
    have hfm : (t.map (fun v => some (Val.int (if v.isNone then 1 else 0)))).filterMap id
        = (t.map (fun v => if v.isNone then (1 : Int) else 0)).map Val.int := by
      rw [List.filterMap_map, List.map_map]
      exact List.filterMap_eq_map _ ▸ rfl
    rw [hfm, foldl_addVal_int, sum_indicator]
    unfold countNone
    rw [List.countP_cons]
    refine congrArg (fun z => some (Val.int z)) ?_
    by_cases hv : v.isNone = true <;> simp [hv] <;> omega

lemma aggColumns_nulltotal {E : Engine} {df : DataFrame} (h : df.rows ≠ []) :
    ∀ l : List Field,
      aggColumns E df (l.map (fun f => ⟨.sum, indicatorExpr f.name, f.name⟩))
        = .ok (l.map (fun f => some (.int (countNone (colVals df f.name))))) := by
  intro l
  induction l with
  | nil => rfl
  | cons f t ih =>
    rw [List.map_cons, List.map_cons]
    simp only [aggColumns, aggApply]
    rw [indicator_col df f.name, sumVals_indicator _ (by
      unfold colVals
      simpa using h), ih]

lemma null_total_eq (E : Engine) (df : DataFrame) (h : df.rows ≠ []) :
    null_total E df = .ok ⟨df.schema.map (fun f => ⟨f.name, .int64⟩),
      [df.schema.map (fun f => some (.int (countNone (colVals df f.name))))]⟩ := by
  unfold null_total aggregateDf
  rw [aggColumns_nulltotal h]
  show Except.ok _ = _
  refine congrArg Except.ok (congrArg₂ DataFrame.mk ?_ rfl)
  rw [List.map_map]
  exact List.map_congr_left (fun f _ => rfl)

lemma listLike_not_temporal {dt : DataType} (h : dt.isListLike = true) :
    dt.isTemporal = false := by
  cases dt <;> simp [DataType.isListLike, DataType.isTemporal] at h ⊢

/- ------------------------------------------------------------------ -/
/- Claim theorems                                                      -/
/- ------------------------------------------------------------------ -/

/-- Claim C2: normalization at construction maps each field by the first
matching rule — temporal types cast to a numeric representation, numeric
types pass through unchanged, list-valued types are replaced by the scalar
length of the list, every other type is cast to text and replaced by its
length — and every projection is aliased back to the original field name,
so the normalized dataset has exactly the original column names. -/
theorem normalization_rules_and_names (df : DataFrame) (d : DataFrameDescriber)
    (h : try_new df = .ok d) :
    d.transformed.schema.map Field.name = df.schema.map Field.name ∧
    (∀ f : Field,
      (f.dtype.isTemporal = true →
        normalizeExpr f = .alias (.cast (.col f.name) .float64) f.name) ∧
      (f.dtype.isTemporal = false → f.dtype.isNumeric = true →
        normalizeExpr f = .alias (.col f.name) f.name) ∧
      (f.dtype.isTemporal = false → f.dtype.isNumeric = false →
        f.dtype.isListLike = true →
        normalizeExpr f = .alias (.arrayLength (.col f.name)) f.name) ∧
      (f.dtype.isTemporal = false → f.dtype.isNumeric = false →
        f.dtype.isListLike = false →
        normalizeExpr f = .alias (.strLength (.cast (.col f.name) .utf8)) f.name)) := by
  refine ⟨transformed_names h, ?_⟩
  intro f
  refine ⟨?_, ?_, ?_, ?_⟩
  · intro h1
    unfold normalizeExpr
    rw [if_pos h1]
  · intro h1 h2
    unfold normalizeExpr
    rw [if_neg (by simp [h1]), if_pos h2]
  · intro h1 h2 h3
    unfold normalizeExpr
    rw [if_neg (by simp [h1]), if_neg (by simp [h2]), if_pos h3]
  · intro h1 h2 h3
    unfold normalizeExpr
    rw [if_neg (by simp [h1]), if_neg (by simp [h2]), if_neg (by simp [h3])]

/-- Witness for C2 at concrete inputs: the name-preservation conjunct at the
one-column dataset dfA, and the temporal rule at a timestamp field. -/
theorem normalization_rules_and_names_witness :
    descA.transformed.schema.map Field.name = dfA.schema.map Field.name ∧
    normalizeExpr ⟨"ts", .timestamp⟩ = .alias (.cast (.col "ts") .float64) "ts" :=
  ⟨(normalization_rules_and_names dfA descA rfl).1,
   ((normalization_rules_and_names dfA descA rfl).2 ⟨"ts", .timestamp⟩).1 rfl⟩

/-- Claim C3: with an empty configured method list, describe fails with the
generic no-statistics error and never returns a report. -/
theorem empty_methods_errors (E : Engine) (d : DataFrameDescriber)
    (h : d.methods = []) :
    describeRun E d = .err "No statistics found" ∧
    ∀ r : DataFrame, describeRun E d ≠ .ok r := by
  have hdo : do_describe E d = .err "No statistics found" := by
    unfold do_describe
    rw [h]
    rfl
  constructor
  · unfold describeRun
    rw [hdo]
  · intro r hr
    unfold describeRun at hr
    rw [hdo] at hr
    exact Outcome.noConfusion (show Outcome.err "No statistics found" = Outcome.ok r from hr)

/-- Witness for C3: a concrete describer state with zero methods. -/
theorem empty_methods_errors_witness :
    describeRun simpleEngine descNoMethods = .err "No statistics found" :=
  (empty_methods_errors simpleEngine descNoMethods rfl).1

/-- Claim C10: after construction every normalized column has a numeric
type (temporal becomes Float64, list becomes a length type, other
non-numeric types become a text-length type), so the numeric-only filter
retains every column, each statistic row covers the full column set, and
every prepended row presented to the union has the same column-name list
(the describe column followed by every normalized column), so the per-row
union never sees mismatched schemas. -/
theorem normalized_all_numeric_full_rows (E : Engine) (df : DataFrame)
    (d : DataFrameDescriber) (h : try_new df = .ok d)
    (hn : (df.schema.map Field.name).Nodup) :
    (∀ f ∈ d.transformed.schema, f.dtype.isNumeric = true) ∧
    d.transformed.schema.filter (fun f => f.dtype.isNumeric) = d.transformed.schema ∧
    List.Forall₂ (fun g f => f.name = g.name ∧
        (g.dtype.isTemporal = true → f.dtype = .float64) ∧
        (g.dtype.isTemporal = false → g.dtype.isNumeric = false →
          g.dtype.isListLike = true → f.dtype = .uint64) ∧
        (g.dtype.isTemporal = false → g.dtype.isNumeric = false →
          g.dtype.isListLike = false → f.dtype = .int32))
      df.schema d.transformed.schema ∧
    (∀ m ∈ d.methods, ∀ st, statDf E d.transformed m = .ok st →
      st.schema.map Field.name = d.transformed.schema.map Field.name) ∧
    (∀ m ∈ d.methods, ∀ st st2, statDf E d.transformed m = .ok st →
      prependLabel m st = .ok st2 →
      st2.schema.map Field.name = "describe" :: d.transformed.schema.map Field.name) := by
  have hfull := transformed_filter_full h hn
  have hstat : ∀ m, ∀ st, statDf E d.transformed m = .ok st →
      st.schema.map Field.name = d.transformed.schema.map Field.name := by
    intro m st hst
    have hnames := (statDf_ok hst).2
    by_cases hm : m = .nullTotal
    · rw [if_pos hm] at hnames
      exact hnames
    · rw [if_neg hm, hfull] at hnames
      exact hnames
  refine ⟨transformed_all_numeric h hn, hfull, ?_, fun m _ st hst => hstat m st hst, ?_⟩
  · obtain ⟨-, -, hs, -⟩ := try_new_parts h
    rw [hs, List.forall₂_map_right_iff, List.forall₂_same]
    intro g hg
    refine ⟨rfl, ?_, ?_, ?_⟩
    · intro h1
      exact normalize_dtype_temporal h1
    · intro h1 h2 h3
      exact normalize_dtype_listlike h1 h2 h3
    · intro h1 h2 h3
      exact normalize_dtype_other h1 h2 h3
  · intro m _ st st2 hst hp
    rw [prependLabel_eq] at hp
    have hp2 := (Except.ok.inj hp).symm
    subst hp2
    show "describe" :: (st.schema.map _).map Field.name = _
    rw [List.map_map]
    refine congrArg (List.cons "describe") ?_
    have : st.schema.map (Field.name ∘ fun f =>
        (⟨f.name, Expr.dtype st.schema (.col f.name)⟩ : Field)) = st.schema.map Field.name :=
      List.map_congr_left (fun g _ => rfl)
    rw [this]
    exact hstat m st hst

/-- Witness for C10: the numeric filter keeps every normalized column of the
concrete dataset dfA. -/
theorem normalized_all_numeric_witness :
    descA.transformed.schema.filter (fun f => f.dtype.isNumeric) = descA.transformed.schema :=
  (normalized_all_numeric_full_rows simpleEngine dfA descA rfl (by decide)).2.1

/-- Claim C1: the Total statistic row over the normalized dataset has one
entry per normalized column — the numeric filter retains every column, so
the row is not restricted to a subset — and each entry is the count of
non-null values of that column; the normalized column list carries exactly
the original column names. -/
theorem total_counts_every_normalized_column (E : Engine) (df : DataFrame)
    (d : DataFrameDescriber) (h : try_new df = .ok d)
    (hn : (df.schema.map Field.name).Nodup) :
    total E d.transformed = .ok ⟨d.transformed.schema.map (fun f => ⟨f.name, .int64⟩),
      [d.transformed.schema.map
        (fun f => some (.int (countSome (colVals d.transformed f.name))))]⟩ ∧
    d.transformed.schema.map Field.name = df.schema.map Field.name :=
  ⟨total_eq E d.transformed (transformed_filter_full h hn), transformed_names h⟩

/-- Witness for C1 at a textual column with one null out of two rows: the
Total row covers the non-numeric original column and counts 1 non-null. -/
theorem total_counts_witness :
    total simpleEngine descS.transformed = .ok ⟨[⟨"s", .int64⟩], [[some (.int 1)]]⟩ :=
  (total_counts_every_normalized_column simpleEngine dfS descS rfl (by decide)).1

/-- Counterexample for C8 as stated: on a dataset with a column and zero
rows the NullTotal entry is null (SQL sum over no rows), not the count 0
the claim asserts for k = 0 nulls out of N = 0 rows. -/
theorem null_total_empty_counterexample :
    null_total simpleEngine dfNoRows = .ok ⟨[⟨"a", .int64⟩], [[none]]⟩ ∧
    (none : Option Val) ≠ some (.int 0) :=
  ⟨rfl, by simp⟩

/-- Claim C8 as amended: on every dataset with at least one row, the
NullTotal statistic row has one entry per column, each the sum of the
1-if-null indicator, which equals the number k of null entries of that
column; on a zero-row dataset the sum, hence the entry, is null. -/
theorem null_total_counts_amended (E : Engine) (df : DataFrame) (h : df.rows ≠ []) :
    null_total E df = .ok ⟨df.schema.map (fun f => ⟨f.name, .int64⟩),
      [df.schema.map (fun f => some (.int (countNone (colVals df f.name))))]⟩ :=
  null_total_eq E df h

/-- Witness for amended C8: two nulls out of three rows give entry 2. -/
theorem null_total_counts_witness :
    null_total simpleEngine dfNulls = .ok ⟨[⟨"a", .int64⟩], [[some (.int 2)]]⟩ :=
  null_total_counts_amended simpleEngine dfNulls (by simp [dfNulls])

/-- Claim C5: whenever describe returns a report, its column-name list is
the describe label column followed by the original field names in original
order, the leading column is textual, and every row has exactly one cell
per column. -/
theorem report_columns_shape (E : Engine) (d : DataFrameDescriber) (r : DataFrame)
    (h : describeRun E d = .ok r) :
    r.schema.map Field.name = "describe" :: d.original.schema.map Field.name ∧
    (r.schema.head?).map Field.dtype = some .utf8 ∧
    (∀ row ∈ r.rows, row.length = r.schema.length) := by
  obtain ⟨rdf, hdo, hcb⟩ := describeRun_ok h
  obtain ⟨hdesc, -, -, -⟩ := do_describe_ok hdo
  obtain ⟨hS, -, -, hwf⟩ := cast_back_ok hcb hdesc
  refine ⟨?_, ?_, hwf⟩
  · rw [hS, List.map_cons, List.map_map]
    exact congrArg (List.cons "describe") (List.map_congr_left (fun g _ => rfl))
  · rw [hS]
    rfl

/-- Witness for C5: the concrete report over dfA. -/
theorem report_columns_shape_witness :
    reportA.schema.map Field.name = "describe" :: dfA.schema.map Field.name ∧
    (reportA.schema.head?).map Field.dtype = some .utf8 :=
  ⟨(report_columns_shape simpleEngine descA reportA rfl).1,
   (report_columns_shape simpleEngine descA reportA rfl).2.1⟩

/-- Claim C9: the registry fixed at construction has exactly the ten
methods, and whenever describe returns a report its row count equals the
method count — a returned report is never partial. -/
theorem describe_rowcount_or_fails (E : Engine) (df : DataFrame)
    (d : DataFrameDescriber) (r : DataFrame)
    (h0 : try_new df = .ok d) (h : describeRun E d = .ok r) :
    d.methods = defaultMethods ∧ d.methods.length = 10 ∧
    r.rows.length = d.methods.length := by
  obtain ⟨-, hm, -, -⟩ := try_new_parts h0
  obtain ⟨rdf, hdo, hcb⟩ := describeRun_ok h
  obtain ⟨hdesc, -, hlen, -⟩ := do_describe_ok hdo
  obtain ⟨-, hlen2, -, -⟩ := cast_back_ok hcb hdesc
  exact ⟨hm, by rw [hm]; rfl, by rw [hlen2, hlen]⟩

/-- Witness for C9: the concrete report over dfA has ten rows. -/
theorem describe_rowcount_witness :
    descA.methods.length = 10 ∧ reportA.rows.length = descA.methods.length :=
  ⟨(describe_rowcount_or_fails simpleEngine dfA descA reportA rfl rfl).2.1,
   (describe_rowcount_or_fails simpleEngine dfA descA reportA rfl rfl).2.2⟩

/-- Claim C6: the ten registry methods display as the listed labels, and
whenever describe returns a report its rows are ordered by the describe
label in ascending lexicographic order — the label column reads exactly
max, mean, median, min, null_total, percentile_25, percentile_50,
percentile_75, stddev, total. The model pipeline is a pure function of the
describer and the engine, so repeated calls agree by definitional
equality. -/
theorem report_sorted_by_label (E : Engine) (df : DataFrame) (d : DataFrameDescriber)
    (r : DataFrame) (h0 : try_new df = .ok d) (h : describeRun E d = .ok r) :
    d.methods.map DescribeMethod.label =
      ["total", "null_total", "mean", "stddev", "min", "max", "median",
       "percentile_25", "percentile_50", "percentile_75"] ∧
    r.rows.map (keyAt 0) =
      ["max", "mean", "median", "min", "null_total", "percentile_25",
       "percentile_50", "percentile_75", "stddev", "total"].map
        (fun s => some (.str s)) ∧
    List.Sorted (fun a b => strLeB a b = true)
      ["max", "mean", "median", "min", "null_total", "percentile_25",
       "percentile_50", "percentile_75", "stddev", "total"] := by
  obtain ⟨-, hm, -, -⟩ := try_new_parts h0
  obtain ⟨rdf, hdo, hcb⟩ := describeRun_ok h
  obtain ⟨hdesc, hkeys, -, -⟩ := do_describe_ok hdo
  obtain ⟨-, -, hsorted, -⟩ := cast_back_ok hcb hdesc
  refine ⟨by rw [hm]; rfl, ?_, by decide⟩
  rw [hsorted, hkeys, hm]
  rfl

/-- Witness for C6: the concrete report over dfA, with its label column in
sorted order. -/
theorem report_sorted_by_label_witness :
    reportA.rows.map (keyAt 0) =
      ["max", "mean", "median", "min", "null_total", "percentile_25",
       "percentile_50", "percentile_75", "stddev", "total"].map
        (fun s => some (.str s)) :=
  (report_sorted_by_label simpleEngine dfA descA reportA rfl rfl).2.1

/-- Claim C7: the reverse-cast projection maps each report column by the
original field type — temporal fields cast back to their original temporal
type, list fields cast to Int32, all other fields are identity columns —
and consequently, in a returned report, a temporal column carries its
original temporal type and a list column carries Int32. -/
theorem cast_back_types (E : Engine) (df : DataFrame) (d : DataFrameDescriber)
    (r : DataFrame) (f : Field)
    (h0 : try_new df = .ok d) (h : describeRun E d = .ok r)
    (hnd : "describe" ∉ df.schema.map Field.name)
    (hn : (df.schema.map Field.name).Nodup) :
    (∀ g : Field,
      (g.dtype.isTemporal = true →
        castBackExpr g = .alias (.cast (.col g.name) g.dtype) g.name) ∧
      (g.dtype.isTemporal = false → g.dtype.isListLike = true →
        castBackExpr g = .alias (.cast (.col g.name) .int32) g.name) ∧
      (g.dtype.isTemporal = false → g.dtype.isListLike = false →
        castBackExpr g = .alias (.col g.name) g.name)) ∧
    (f ∈ df.schema → f.dtype.isTemporal = true →
      lookupT r.schema f.name = some f.dtype) ∧
    (f ∈ df.schema → f.dtype.isListLike = true →
      lookupT r.schema f.name = some .int32) := by
  obtain ⟨horig, -, -, -⟩ := try_new_parts h0
  obtain ⟨rdf, hdo, hcb⟩ := describeRun_ok h
  obtain ⟨hdesc, -, -, -⟩ := do_describe_ok hdo
  obtain ⟨hS, -, -, -⟩ := cast_back_ok hcb hdesc
  have hexpr : ∀ g : Field,
      (g.dtype.isTemporal = true →
        castBackExpr g = .alias (.cast (.col g.name) g.dtype) g.name) ∧
      (g.dtype.isTemporal = false → g.dtype.isListLike = true →
        castBackExpr g = .alias (.cast (.col g.name) .int32) g.name) ∧
      (g.dtype.isTemporal = false → g.dtype.isListLike = false →
        castBackExpr g = .alias (.col g.name) g.name) := by
    intro g
    refine ⟨?_, ?_, ?_⟩
    · intro h1
      unfold castBackExpr
      rw [if_pos h1]
    · intro h1 h3
      unfold castBackExpr
      rw [if_neg (by simp [h1]), if_pos h3]
    · intro h1 h3
      unfold castBackExpr
      rw [if_neg (by simp [h1]), if_neg (by simp [h3])]
  have hlook : ∀ (hf : f ∈ df.schema),
      lookupT r.schema f.name
        = some (Expr.dtype rdf.schema (castBackExpr f)) := by
    intro hf
    have hfname : ¬((⟨"describe", .utf8⟩ : Field).name = f.name) := by
      intro hEq
      exact hnd ((show "describe" = f.name from hEq) ▸ List.mem_map_of_mem Field.name hf)
    unfold lookupT
    rw [hS, horig, List.find?_cons_of_neg _ (by simp [hfname])]
    rw [find?_map_name (fun g => ⟨g.name, Expr.dtype rdf.schema (castBackExpr g)⟩)
      (fun x => rfl) hf hn]
    rfl
  refine ⟨hexpr, ?_, ?_⟩
  · intro hf h1
    rw [hlook hf]
    refine congrArg some ?_
    rw [(hexpr f).1 h1]
    rfl
  · intro hf h3
    have h1 := listLike_not_temporal h3
    rw [hlook hf]
    refine congrArg some ?_
    rw [(hexpr f).2.1 h1 h3]
    rfl

/-- Witness for C7: in the concrete report over the temporal dataset dfT
the ts column carries its original timestamp type again, and the list rule
instantiates at a list field. -/
theorem cast_back_types_witness :
    lookupT reportT.schema "ts" = some .timestamp ∧
    castBackExpr ⟨"l", .list .int32⟩ = .alias (.cast (.col "l") .int32) "l" :=
  ⟨(cast_back_types simpleEngine dfT descT reportT ⟨"ts", .timestamp⟩ rfl rfl
      (by decide) (by decide)).2.1 (by decide) rfl,
   ((cast_back_types simpleEngine dfT descT reportT ⟨"ts", .timestamp⟩ rfl rfl
      (by decide) (by decide)).1 ⟨"l", .list .int32⟩).2.1 rfl rfl⟩

/-- Counterexample for C4 as stated: with an engine whose avg aggregate
fails, describe over the concrete describer aborts by panic — the unwrap
inside the fold — instead of returning an error value; the outcome is the
panicked constructor, not the err constructor the claim describes, and it
carries the first failing aggregation (mean runs after total and
null_total, which succeed). -/
theorem aggregation_failure_panics_counterexample :
    describeRun failEngine descA = .panicked "avg aggregate error" := rfl

/-- Claim C4 as amended: any stage failure is fatal and no partial report
is delivered, but the failure surfaces in two different ways — a failing
statistic aggregation at the head of the method list aborts the call by
panic carrying that first error, a panic inside the fold propagates as a
panic, and only an error of the final cast-back stage is returned as an
error value. -/
theorem describe_failfast_amended (E : Engine) (d : DataFrameDescriber) :
    (∀ m ms e, d.methods = m :: ms → statDf E d.transformed m = .error e →
      describeRun E d = .panicked e) ∧
    (∀ rdf e, do_describe E d = .ok rdf → cast_back d rdf = .error e →
      describeRun E d = .err e) ∧
    (∀ e, do_describe E d = .panicked e → describeRun E d = .panicked e) := by
  refine ⟨?_, ?_, ?_⟩
  · intro m ms e hm hst
    unfold describeRun do_describe
    rw [hm, doDescribeGo, hst]
  · intro rdf e hdo hcb
    unfold describeRun
    rw [hdo]
    show (match cast_back d rdf with
      | .ok r => Outcome.ok r
      | .error e2 => Outcome.err e2) = Outcome.err e
    rw [hcb]
  · intro e hdo
    unfold describeRun
    rw [hdo]

/-- Witness for amended C4: a describer whose single method is Mean panics
with the avg aggregation error under the failing engine. -/
theorem describe_failfast_witness :
    describeRun failEngine descMeanOnly = .panicked "avg aggregate error" :=
  (describe_failfast_amended failEngine descMeanOnly).1 .mean [] "avg aggregate error" rfl rfl

end Describe
